import Mathlib

/-!
Verification development for the daily content bot (`bot.py`).

The model below is a shallow embedding of the core logic of the bot:
history store, selection policy, generators and the scheduled
`daily_post` routine.  Conventions used throughout:

* Timestamps are whole-day integers (`Int`); the source computes all
  ages as `(now - post_date).days`, i.e. at whole-day granularity, so a
  day-indexed clock `now : Int` is passed explicitly where the source
  calls `datetime.utcnow()`.
* `random.choice(xs)` is modelled by `choose? xs k`, which picks index
  `k % xs.length`; a uniformly distributed `k` yields the uniform
  choice of the source, and `choose? [] k = none` models the
  `IndexError` raised by `random.choice` on an empty sequence.  The
  coin flip `random.random() < 0.3` becomes an explicit `Bool`, and all
  random draws of one invocation are collected in a `GenRand` record.
* The external model call `claude.messages.create` is abstracted as an
  `Oracle : String → Nat → Except Unit String` (prompt and max_tokens
  in, completion text or a raised exception out).  Failure of any call
  propagates, as exceptions do in the source.  Prompt template literals
  are abbreviated: they are passed opaquely to the oracle and never
  inspected by the logic, and every theorem quantifies over the oracle.
* Python dict fields are modelled as record fields; truthiness tests
  (`if history.get("pending_puzzle_answer"):`) are modelled by
  `optTruthy` / a nonemptiness test, matching Python string truthiness.
* `save_history` rewrites the whole aggregate; persistence is modelled
  by the `..._store` wrappers, which return the stored aggregate (the
  new one after a successful run, the untouched one after an abort).
-/

namespace Bot

/-- Post record, one entry of `history["posts"]`.  Fields that a
generator may omit in the source dict (`wonder_type`, `answer`) are
`Option`s; `topic` uses `""` for the absent/empty case, matching the
truthiness tests applied to it. -/
structure Post where
  date : Int
  mode : String
  topic : String
  wonder_type : Option String
  summary : String
  content : String
  answer : Option String
  had_callback : Bool
deriving DecidableEq

/-- History aggregate, the persisted JSON document. -/
structure History where
  posts : List Post
  used_wonders : List String
  used_topics : List String
  pending_puzzle_answer : Option String
  temp_answer : Option String
deriving DecidableEq

/-- Default aggregate returned by `load_history` when no file exists
(the `temp_answer` key is absent, read with a default by `!answer`). -/
def emptyHistory : History :=
  { posts := [], used_wonders := [], used_topics := [],
    pending_puzzle_answer := none, temp_answer := none }

/-- Python truthiness of a nullable string field. -/
def optTruthy : Option String → Bool
  | none => false
  | some s => s ≠ ""

/-- Python slice `l[-n:]`: the last `n` elements. -/
def takeLast (n : Nat) (l : List α) : List α :=
  (l.reverse.take n).reverse

/-- Model of `random.choice`: pick position `k % length`; `none` models
the `IndexError` on an empty sequence. -/
def choose? (l : List α) (k : Nat) : Option α :=
  l.get? (k % l.length)

/-- WONDER_TYPES constant from the source. -/
def WONDER_TYPES : List String := [
  "something that seems impossible but is mathematically proven true",
  "a simple question with a surprisingly complex or unsolved answer",
  "a pattern that appears unexpectedly across unrelated domains",
  "a problem that stumped mathematicians or physicists for decades (or centuries)",
  "something proven to exist but never directly observed",
  "two seemingly unrelated things that turn out to be mathematically equivalent",
  "a result that contradicts everyday intuition about how the world works",
  "a physical phenomenon that has no complete explanation yet",
  "an everyday object or experience that hides deep mathematical structure",
  "a limit or bound that nature seems to respect for mysterious reasons"]

/-- TOPICS constant from the source. -/
def TOPICS : List String := [
  "quantum mechanics", "number theory", "thermodynamics", "topology",
  "special or general relativity", "probability paradoxes", "chaos theory",
  "electromagnetism", "group theory and symmetry", "fluid dynamics",
  "prime numbers", "cosmology and the early universe", "game theory",
  "optics and light", "combinatorics", "statistical mechanics",
  "black holes", "wave phenomena", "graph theory", "orbital mechanics"]

/-- MODE_SCHEDULE lookup with the `.get(weekday, "fact")` default. -/
def mode_schedule (weekday : Nat) : String :=
  match weekday with
  | 0 => "fact"
  | 1 => "fact"
  | 2 => "what_if"
  | 3 => "fact"
  | 4 => "puzzle"
  | 5 => "fact"
  | 6 => "connections"
  | _ => "fact"

/-- `add_to_history`: append the post, rotate the two recently-used
caches (`[-5:]` and `[-8:]`) when the corresponding field is truthy,
then persist the result. -/
def add_to_history (h : History) (p : Post) : History :=
  let h1 := { h with posts := h.posts ++ [p] }
  let h2 := if optTruthy p.wonder_type then
      { h1 with used_wonders := takeLast 5 (h1.used_wonders ++ [p.wonder_type.getD ""]) }
    else h1
  if p.topic ≠ "" then
    { h2 with used_topics := takeLast 8 (h2.used_topics ++ [p.topic]) }
  else h2

/-- Loop body of `get_callback_candidate`: collect fact posts 7-21 days
old, preserving order (the Python `for`/`append` loop). -/
def callbackLoop (now : Int) : List Post → List Post
  | [] => []
  | p :: rest =>
    if 7 ≤ now - p.date ∧ now - p.date ≤ 21 ∧ p.mode = "fact" then
      p :: callbackLoop now rest
    else
      callbackLoop now rest

/-- `get_callback_candidate`: needs ≥ 7 total posts, then a random
member of the candidate set, else `None`. -/
def get_callback_candidate (h : History) (now : Int) (k : Nat) : Option Post :=
  if h.posts.length < 7 then none
  else
    let candidates := callbackLoop now h.posts
    if candidates.isEmpty then none else choose? candidates k

/-- Loop body of `get_recent_posts` (the Python `for`/`append` loop). -/
def recentLoop (now days : Int) : List Post → List Post
  | [] => []
  | p :: rest =>
    if now - p.date ≤ days then p :: recentLoop now days rest
    else recentLoop now days rest

/-- `get_recent_posts`: posts whose whole-day age is ≤ `days`. -/
def get_recent_posts (h : History) (now : Int) (days : Int) : List Post :=
  if h.posts.isEmpty then [] else recentLoop now days h.posts

/-- `pick_fresh`: random choice among the options not recently used,
falling back to the full option list when none is fresh. -/
def pick_fresh (options recently_used : List String) (k : Nat) : Option String :=
  let fresh := options.filter (fun o => !(recently_used.contains o))
  if fresh.isEmpty then choose? options k else choose? fresh k

/-- External completion call `claude.messages.create`, abstracted:
prompt text and max_tokens in, completion text out, or a raised
exception (`Except.error ()`). -/
def Oracle : Type := String → Nat → Except Unit String

/-- All random draws one invocation may make: the `random.choice`
indices for topic, wonder type and callback candidate, and the result
of the `random.random() < 0.3` callback coin flip. -/
structure GenRand where
  kTopic : Nat
  kWonder : Nat
  callbackRoll : Bool
  kCallback : Nat
deriving DecidableEq

/-- Trim of a character list: `str.strip()`. -/
def listTrim (l : List Char) : List Char :=
  ((l.dropWhile Char.isWhitespace).reverse.dropWhile Char.isWhitespace).reverse

/-- Model of Python `str.strip()`. -/
def strTrim (s : String) : String := ⟨listTrim s.data⟩

/-- Split a character list at the FIRST occurrence of `sep`, returning
the parts before and after it; `none` when `sep` does not occur.  This
models Python `s.split(sep, 1)` guarded by `sep in s`. -/
def splitFirst (sep : List Char) : List Char → Option (List Char × List Char)
  | [] => none
  | c :: rest =>
    if sep.isPrefixOf (c :: rest) then some ([], (c :: rest).drop sep.length)
    else
      match splitFirst sep rest with
      | some (pre, post) => some (c :: pre, post)
      | none => none

/-- Puzzle response parsing from `generate_puzzle`: split the raw
response on the literal `ANSWER:` marker, stripping both parts; when
the marker is absent the whole response is the puzzle and the answer is
the placeholder. -/
def parseAnswer (full : String) : String × String :=
  match splitFirst "ANSWER:".data full.data with
  | some (pre, post) => (strTrim ⟨pre⟩, strTrim ⟨post⟩)
  | none => (full, "(Answer coming tomorrow)")

/-- `generate_summary`: one Haiku call over the content, stripped.
The prompt literal is abbreviated (opaque to the oracle). -/
def generate_summary (o : Oracle) (content : String) : Except Unit String :=
  match o ("Summarize this in 1 sentence (under 100 words), focusing on the core concept or question:\n\n" ++ content) 100 with
  | .error e => .error e
  | .ok t => .ok (strTrim t)

/-- `build_context_block`: digest of the last 10 posts of the last 14
days, or the empty string.  Dates are rendered from the day index. -/
def build_context_block (h : History) (now : Int) : String :=
  let recent := get_recent_posts h now 14
  if recent.isEmpty then ""
  else
    String.intercalate "\n"
      (["<recent_posts>"] ++
        (takeLast 10 recent).map (fun p =>
          "[" ++ toString p.date ++ "] (" ++ p.mode ++ ") " ++ p.topic ++ ": " ++
            p.summary.take 200) ++
        ["</recent_posts>"])

/-- Callback splice of `generate_fact` (template abbreviated). -/
def callbackText (now : Int) (cb : Post) : String :=
  "\nCALLBACK OPPORTUNITY: About " ++ toString (now - cb.date) ++
    " days ago, \nyou shared this: " ++ cb.summary ++
    "\nConsider briefly connecting today, otherwise ignore this."

/-- `generate_fact`: pick a fresh topic and wonder type, optionally a
callback (30% coin, then candidate search), one main completion, one
summary call.  Prompt template abbreviated. -/
def generate_fact (o : Oracle) (r : GenRand) (now : Int) (h : History) : Except Unit Post :=
  match pick_fresh TOPICS h.used_topics r.kTopic,
        pick_fresh WONDER_TYPES h.used_wonders r.kWonder with
  | some topic, some wonder =>
    let context := build_context_block h now
    let callback := if r.callbackRoll then get_callback_candidate h now r.kCallback else none
    let callback_text := match callback with
      | some cb => callbackText now cb
      | none => ""
    let prompt := context ++ "\n\nTASK: Share a genuinely surprising fact about " ++
      topic ++ ".\nTYPE OF WONDER: " ++ wonder ++ "\n" ++ callback_text
    match o prompt 1024 with
    | .error e => .error e
    | .ok content =>
      match generate_summary o content with
      | .error e => .error e
      | .ok summary =>
        .ok { date := 0, mode := "fact", topic := topic, wonder_type := some wonder,
              summary := summary, content := content, answer := none,
              had_callback := callback.isSome }
  | _, _ => .error ()

/-- `generate_what_if` (prompt template abbreviated). -/
def generate_what_if (o : Oracle) (r : GenRand) (now : Int) (h : History) : Except Unit Post :=
  match pick_fresh TOPICS h.used_topics r.kTopic with
  | some topic =>
    let context := build_context_block h now
    let prompt := context ++
      "\n\nTASK: Ask an absurd hypothetical question and answer it with real physics or math.\nRelated topic to draw from (but get creative): " ++ topic
    match o prompt 1024 with
    | .error e => .error e
    | .ok content =>
      match generate_summary o content with
      | .error e => .error e
      | .ok summary =>
        .ok { date := 0, mode := "what_if", topic := topic, wonder_type := none,
              summary := summary, content := content, answer := none,
              had_callback := false }
  | none => .error ()

/-- `generate_puzzle`: one main completion, parsed by `parseAnswer`,
then the summary call over the puzzle part only. -/
def generate_puzzle (o : Oracle) (r : GenRand) (now : Int) (h : History) : Except Unit Post :=
  match pick_fresh TOPICS h.used_topics r.kTopic with
  | some topic =>
    let context := build_context_block h now
    let prompt := context ++ "\n\nTASK: Pose an intriguing puzzle or paradox from " ++
      topic ++ ".\nAfter the puzzle, provide the answer in a SEPARATE section marked ANSWER: that will be posted tomorrow."
    match o prompt 1024 with
    | .error e => .error e
    | .ok full_response =>
      let parsed := parseAnswer full_response
      match generate_summary o parsed.1 with
      | .error e => .error e
      | .ok summary =>
        .ok { date := 0, mode := "puzzle", topic := topic, wonder_type := none,
              summary := summary, content := parsed.1, answer := some parsed.2,
              had_callback := false }
  | none => .error ()

/-- `generate_connections`: with fewer than 3 posts in the last 7 days,
degrade to `generate_fact`; otherwise one completion over the weekly
bullet digest plus the summary call. -/
def generate_connections (o : Oracle) (r : GenRand) (now : Int) (h : History) : Except Unit Post :=
  let recent := get_recent_posts h now 7
  if recent.length < 3 then generate_fact o r now h
  else
    let summaries := String.intercalate "\n"
      (recent.map (fun p =>
        "- (" ++ p.mode ++ ") " ++ p.topic ++ ": " ++ p.summary.take 200))
    let prompt := "This week, these posts:\n" ++ summaries ++
      "\n\nTASK: Write a brief connections post that ties together themes from this week."
    match o prompt 1024 with
    | .error e => .error e
    | .ok content =>
      match generate_summary o content with
      | .error e => .error e
      | .ok summary =>
        .ok { date := 0, mode := "connections", topic := "weekly synthesis",
              wonder_type := none, summary := summary, content := content,
              answer := none, had_callback := false }

/-- `generate_content`: route on the mode string; unknown modes fall
back to the fact generator. -/
def generate_content (o : Oracle) (r : GenRand) (now : Int) (mode : String) (h : History) :
    Except Unit Post :=
  if mode = "fact" then generate_fact o r now h
  else if mode = "what_if" then generate_what_if o r now h
  else if mode = "puzzle" then generate_puzzle o r now h
  else if mode = "connections" then generate_connections o r now h
  else generate_fact o r now h

/-- Outcome of a successful `daily_post` run: the aggregate that
`add_to_history` persisted, and the embed description that was sent. -/
structure DailyResult where
  newHistory : History
  description : String
deriving DecidableEq

/-- `daily_post` (body of the `try` block; channel lookup, embed
construction and `channel.send` are external I/O).  Consumes a truthy
pending puzzle answer and prefixes it onto the description; on a puzzle
day stores the truthy new answer; appends the dated post at the end. -/
def daily_post (o : Oracle) (r : GenRand) (now : Int) (weekday : Nat) (h0 : History) :
    Except Unit DailyResult :=
  let answer_text : Option String :=
    if optTruthy h0.pending_puzzle_answer then h0.pending_puzzle_answer else none
  let h1 :=
    if optTruthy h0.pending_puzzle_answer then
      { h0 with pending_puzzle_answer := none }
    else h0
  let mode := mode_schedule weekday
  match generate_content o r now mode h1 with
  | .error e => .error e
  | .ok result =>
    let h2 :=
      if mode = "puzzle" ∧ optTruthy result.answer then
        { h1 with pending_puzzle_answer := result.answer }
      else h1
    let content :=
      match answer_text with
      | some a => "**Yesterday\u0027s puzzle answer:**\n" ++ a ++ "\n\n---\n\n" ++ result.content
      | none => result.content
    let dated := { result with date := now }
    .ok { newHistory := add_to_history h2 dated, description := content }

/-- Aggregate on disk after a `daily_post` invocation ran against the
stored aggregate: the only `save_history` call of the scheduled path is
the one inside `add_to_history`, so an aborted run leaves the store
untouched. -/
def daily_post_store (o : Oracle) (r : GenRand) (now : Int) (weekday : Nat)
    (stored : History) : History :=
  match daily_post o r now weekday stored with
  | .ok res => res.newHistory
  | .error _ => stored

/-- `!fact` command: custom-topic path issues one direct completion
(template abbreviated), otherwise runs `generate_fact`; it never calls
`save_history`.  Returns the embed description. -/
def get_fact_cmd (o : Oracle) (r : GenRand) (now : Int) (topicArg : Option String)
    (h : History) : Except Unit String :=
  if optTruthy topicArg then
    match o ("Share a genuinely surprising fact about " ++ topicArg.getD "" ++ ".") 1024 with
    | .error e => .error e
    | .ok content => .ok content
  else
    match generate_fact o r now h with
    | .error e => .error e
    | .ok result => .ok result.content

/-- `!whatif` command: runs `generate_what_if`; never persists. -/
def get_what_if_cmd (o : Oracle) (r : GenRand) (now : Int) (h : History) :
    Except Unit String :=
  match generate_what_if o r now h with
  | .error e => .error e
  | .ok result => .ok result.content

/-- `!puzzle` command: generate a puzzle, store its answer in the
single-slot `temp_answer` field (`result.get("answer", ...)`), persist,
and return the puzzle text. -/
def get_puzzle_cmd (o : Oracle) (r : GenRand) (now : Int) (h : History) :
    Except Unit (History × String) :=
  match generate_puzzle o r now h with
  | .error e => .error e
  | .ok result =>
    .ok ({ h with temp_answer := some (result.answer.getD "No answer available") },
         result.content)

/-- Aggregate on disk after a `!puzzle` invocation (its `save_history`
runs only after a successful generation). -/
def get_puzzle_store (o : Oracle) (r : GenRand) (now : Int) (stored : History) : History :=
  match get_puzzle_cmd o r now stored with
  | .ok res => res.1
  | .error _ => stored

/-- `!answer` command: read the manual slot with its default; performs
no write. -/
def get_answer_cmd (h : History) : String :=
  h.temp_answer.getD "No recent puzzle to answer!"

/-- Fold of successive `add_to_history` appends from the empty
aggregate. -/
def applyPosts (ps : List Post) : History :=
  ps.foldl add_to_history emptyHistory

/-! Concrete fixtures used to instantiate theorems on explicit inputs. -/

/-- Fact post with the given date, topic and wonder type. -/
def mkP (d : Int) (t w : String) : Post :=
  { date := d, mode := "fact", topic := t, wonder_type := some w,
    summary := "s", content := "c", answer := none, had_callback := false }

/-- Oracle answering every call with `"C"`. -/
def oK : Oracle := fun _ _ => .ok "C"

/-- Oracle raising on every call. -/
def oFail : Oracle := fun _ _ => .error ()

/-- Oracle whose main completion carries a whitespace-only text after
the `ANSWER:` marker (the answer strips to the empty string). -/
def oWS : Oracle := fun _ n => if n == 1024 then .ok "P ANSWER: " else .ok "s"

/-- Oracle whose main completion is a well-formed puzzle response. -/
def oPz : Oracle := fun _ n => if n == 1024 then .ok "Q ANSWER: 7" else .ok "s"

/-- Fixed random draws: first option, no callback. -/
def r0 : GenRand := ⟨0, 0, false, 0⟩

/-- Aggregate holding a pending puzzle answer `"7"`. -/
def Hp : History :=
  { posts := [], used_wonders := [], used_topics := [],
    pending_puzzle_answer := some "7", temp_answer := none }

/-- The post `daily_post oK r0 0 0 Hp` generates. -/
def P1 : Post :=
  { date := 0, mode := "fact", topic := "quantum mechanics",
    wonder_type := some "something that seems impossible but is mathematically proven true",
    summary := "C", content := "C", answer := none, had_callback := false }

/-- The result of `daily_post oK r0 0 0 Hp`. -/
def RES1 : DailyResult :=
  { newHistory :=
      { posts := [P1],
        used_wonders := ["something that seems impossible but is mathematically proven true"],
        used_topics := ["quantum mechanics"],
        pending_puzzle_answer := none, temp_answer := none },
    description := "**Yesterday\u0027s puzzle answer:**\n7\n\n---\n\nC" }

/-- Six fact posts for the rotation-window instance. -/
def PS6 : List Post :=
  [mkP 0 "t1" "w1", mkP 1 "t2" "w2", mkP 2 "t3" "w3",
   mkP 3 "t4" "w4", mkP 4 "t5" "w5", mkP 5 "t6" "w6"]

/-- Three posts dated today, 6 days ago and 8 days ago (now = 100). -/
def H8 : History :=
  { posts := [mkP 100 "a" "w", mkP 94 "b" "w", mkP 92 "c" "w"],
    used_wonders := [], used_topics := [],
    pending_puzzle_answer := none, temp_answer := none }

/-- Seven fact posts, all 7-13 days old at now = 100. -/
def H5b : History :=
  { posts := [mkP 93 "t1" "w", mkP 92 "t2" "w", mkP 91 "t3" "w", mkP 90 "t4" "w",
              mkP 89 "t5" "w", mkP 88 "t6" "w", mkP 87 "t7" "w"],
    used_wonders := [], used_topics := [],
    pending_puzzle_answer := none, temp_answer := none }

/-- Aggregate after `!puzzle` ran with oracle `oPz` on the empty
aggregate. -/
def HPz : History := { emptyHistory with temp_answer := some "7" }

/-! Helper lemmas. -/

theorem takeLast_length (n : Nat) (l : List α) : (takeLast n l).length = min n l.length := by
  simp [takeLast]

theorem takeLast_of_length_le {n : Nat} {l : List α} (h : l.length ≤ n) :
    takeLast n l = l := by
  unfold takeLast
  rw [List.take_of_length_le (by simpa using h), List.reverse_reverse]

theorem takeLast_append_left (n : Nat) (l m : List α) :
    takeLast n (takeLast n l ++ m) = takeLast n (l ++ m) := by
  unfold takeLast
  rw [List.reverse_append, List.reverse_reverse, List.reverse_append]
  congr 1
  rw [List.take_append_eq_append_take, List.take_append_eq_append_take, List.take_take,
    Nat.min_eq_left (Nat.sub_le _ _)]

theorem add_posts_eq (h : History) (p : Post) :
    (add_to_history h p).posts = h.posts ++ [p] := by
  unfold add_to_history
  split <;> split <;> rfl

theorem add_pending_eq (h : History) (p : Post) :
    (add_to_history h p).pending_puzzle_answer = h.pending_puzzle_answer := by
  unfold add_to_history
  split <;> split <;> rfl

theorem add_temp_eq (h : History) (p : Post) :
    (add_to_history h p).temp_answer = h.temp_answer := by
  unfold add_to_history
  split <;> split <;> rfl

theorem add_uw_eq (h : History) (p : Post) :
    (add_to_history h p).used_wonders =
      if optTruthy p.wonder_type then
        takeLast 5 (h.used_wonders ++ [p.wonder_type.getD ""])
      else h.used_wonders := by
  unfold add_to_history
  split <;> split <;> rfl

theorem add_ut_eq (h : History) (p : Post) :
    (add_to_history h p).used_topics =
      if p.topic ≠ "" then takeLast 8 (h.used_topics ++ [p.topic])
      else h.used_topics := by
  unfold add_to_history
  split <;> split <;> rfl

theorem foldl_uw (ps : List Post) : ∀ (h : History),
    (∀ p ∈ ps, optTruthy p.wonder_type = true) → h.used_wonders.length ≤ 5 →
    (ps.foldl add_to_history h).used_wonders =
      takeLast 5 (h.used_wonders ++ ps.map (fun p => p.wonder_type.getD "")) := by
  induction ps with
  | nil =>
    intro h _ hle
    simpa using (takeLast_of_length_le hle).symm
  | cons p ps ih =>
    intro h hall hle
    have hp : optTruthy p.wonder_type = true := hall p (by simp)
    have huw : (add_to_history h p).used_wonders =
        takeLast 5 (h.used_wonders ++ [p.wonder_type.getD ""]) := by
      rw [add_uw_eq, if_pos hp]
    have hlen : (add_to_history h p).used_wonders.length ≤ 5 := by
      rw [huw, takeLast_length]; exact Nat.min_le_left _ _
    rw [List.foldl_cons, ih _ (fun q hq => hall q (by simp [hq])) hlen, huw,
      takeLast_append_left]
    simp

theorem foldl_ut (ps : List Post) : ∀ (h : History),
    (∀ p ∈ ps, p.topic ≠ "") → h.used_topics.length ≤ 8 →
    (ps.foldl add_to_history h).used_topics =
      takeLast 8 (h.used_topics ++ ps.map Post.topic) := by
  induction ps with
  | nil =>
    intro h _ hle
    simpa using (takeLast_of_length_le hle).symm
  | cons p ps ih =>
    intro h hall hle
    have hp : p.topic ≠ "" := hall p (by simp)
    have hut : (add_to_history h p).used_topics =
        takeLast 8 (h.used_topics ++ [p.topic]) := by
      rw [add_ut_eq, if_pos hp]
    have hlen : (add_to_history h p).used_topics.length ≤ 8 := by
      rw [hut, takeLast_length]; exact Nat.min_le_left _ _
    rw [List.foldl_cons, ih _ (fun q hq => hall q (by simp [hq])) hlen, hut,
      takeLast_append_left]
    simp

theorem foldl_bounds (ps : List Post) : ∀ (h : History),
    h.used_wonders.length ≤ 5 → h.used_topics.length ≤ 8 →
    (ps.foldl add_to_history h).used_wonders.length ≤ 5 ∧
    (ps.foldl add_to_history h).used_topics.length ≤ 8 := by
  induction ps with
  | nil => exact fun h h5 h8 => ⟨h5, h8⟩
  | cons p ps ih =>
    intro h h5 h8
    refine ih _ ?_ ?_
    · rw [add_uw_eq]; split
      · rw [takeLast_length]; exact Nat.min_le_left _ _
      · exact h5
    · rw [add_ut_eq]; split
      · rw [takeLast_length]; exact Nat.min_le_left _ _
      · exact h8

/-- C4: starting from the empty aggregate, after N appends of posts
carrying wonder types, `used_wonders` is the rotation window of the
most recent wonder types with bound 5 (oldest dropped first) and has
length min(N, 5); likewise `used_topics` with bound 8; and both bounds
hold in every state reachable by appends. -/
theorem rotation_window (ps : List Post) :
    ((∀ p ∈ ps, optTruthy p.wonder_type = true) →
       (applyPosts ps).used_wonders =
           takeLast 5 (ps.map (fun p => p.wonder_type.getD "")) ∧
       (applyPosts ps).used_wonders.length = min ps.length 5) ∧
    ((∀ p ∈ ps, p.topic ≠ "") →
       (applyPosts ps).used_topics = takeLast 8 (ps.map Post.topic) ∧
       (applyPosts ps).used_topics.length = min ps.length 8) ∧
    ((applyPosts ps).used_wonders.length ≤ 5 ∧
       (applyPosts ps).used_topics.length ≤ 8) := by
  refine ⟨fun hall => ?_, fun hall => ?_, ?_⟩
  · have h1 := foldl_uw ps emptyHistory hall (by simp [emptyHistory])
    have h2 : (applyPosts ps).used_wonders =
        takeLast 5 (ps.map (fun p => p.wonder_type.getD "")) := by
      unfold applyPosts
      rw [h1]; simp [emptyHistory]
    refine ⟨h2, ?_⟩
    rw [h2, takeLast_length, List.length_map, Nat.min_comm]
  · have h1 := foldl_ut ps emptyHistory hall (by simp [emptyHistory])
    have h2 : (applyPosts ps).used_topics = takeLast 8 (ps.map Post.topic) := by
      unfold applyPosts
      rw [h1]; simp [emptyHistory]
    refine ⟨h2, ?_⟩
    rw [h2, takeLast_length, List.length_map, Nat.min_comm]
  · exact foldl_bounds ps emptyHistory (by simp [emptyHistory]) (by simp [emptyHistory])

/-- C4 witness: the rotation window evaluated on six concrete posts. -/
theorem rotation_window_witness :
    (applyPosts PS6).used_wonders =
        takeLast 5 (PS6.map (fun p => p.wonder_type.getD "")) ∧
    (applyPosts PS6).used_wonders.length = min PS6.length 5 :=
  (rotation_window PS6).1 (by decide)

/-- C10: `add_to_history` touches only `posts`, `used_wonders` and
`used_topics`; the pending daily answer slot and the manual answer slot
are framed, so appending a post never clears or overwrites an answer
stored earlier in the same invocation. -/
theorem add_to_history_frame (h : History) (p : Post) :
    (add_to_history h p).pending_puzzle_answer = h.pending_puzzle_answer ∧
    (add_to_history h p).temp_answer = h.temp_answer ∧
    (add_to_history h p).posts = h.posts ++ [p] :=
  ⟨add_pending_eq h p, add_temp_eq h p, add_posts_eq h p⟩

theorem recentLoop_eq_filter (now days : Int) (l : List Post) :
    recentLoop now days l = l.filter (fun p => decide (now - p.date ≤ days)) := by
  induction l with
  | nil => rfl
  | cons p rest ih =>
    unfold recentLoop
    by_cases hc : now - p.date ≤ days
    · rw [if_pos hc, ih, List.filter_cons, if_pos (by simpa using hc)]
    · rw [if_neg hc, ih, List.filter_cons, if_neg (by simpa using hc)]

theorem callbackLoop_eq_filter (now : Int) (l : List Post) :
    callbackLoop now l =
      l.filter (fun p => decide (7 ≤ now - p.date ∧ now - p.date ≤ 21 ∧ p.mode = "fact")) := by
  induction l with
  | nil => rfl
  | cons p rest ih =>
    unfold callbackLoop
    by_cases hc : 7 ≤ now - p.date ∧ now - p.date ≤ 21 ∧ p.mode = "fact"
    · rw [if_pos hc, ih, List.filter_cons, if_pos (by simpa using hc)]
    · rw [if_neg hc, ih, List.filter_cons, if_neg (by simpa using hc)]

theorem choose?_eq_some {l : List α} {k : Nat} (h : l ≠ []) :
    ∃ x, choose? l k = some x ∧ x ∈ l := by
  have hlt : k % l.length < l.length :=
    Nat.mod_lt _ (List.length_pos.mpr h)
  refine ⟨l.get ⟨k % l.length, hlt⟩, ?_, List.get_mem _ _ _⟩
  exact List.get?_eq_get hlt

/-- C8: `get_recent_posts` returns exactly the posts whose whole-day
age is at most the window, preserving order; with window 7 a history
holding posts dated today, 6 days ago and 8 days ago yields exactly the
first two. -/
theorem recent_posts_spec :
    (∀ (h : History) (now days : Int),
       get_recent_posts h now days =
         h.posts.filter (fun p => decide (now - p.date ≤ days))) ∧
    get_recent_posts H8 100 7 = [mkP 100 "a" "w", mkP 94 "b" "w"] := by
  constructor
  · intro h now days
    unfold get_recent_posts
    by_cases he : h.posts.isEmpty
    · rw [if_pos he]
      rw [List.isEmpty_iff] at he
      rw [he]
      rfl
    · rw [if_neg he, recentLoop_eq_filter]
  · decide

/-- C5: `get_callback_candidate` returns none below 7 total posts or
when no fact post is 7-21 days old; otherwise it picks the uniformly
indexed member of the candidate list, and any returned post is a fact
post in the age band. -/
theorem callback_candidate_spec (h : History) (now : Int) (k : Nat) :
    (h.posts.length < 7 → get_callback_candidate h now k = none) ∧
    ((∀ p ∈ h.posts, ¬(7 ≤ now - p.date ∧ now - p.date ≤ 21 ∧ p.mode = "fact")) →
       get_callback_candidate h now k = none) ∧
    (7 ≤ h.posts.length →
       h.posts.filter
           (fun p => decide (7 ≤ now - p.date ∧ now - p.date ≤ 21 ∧ p.mode = "fact")) ≠ [] →
       get_callback_candidate h now k =
         (h.posts.filter
             (fun p => decide (7 ≤ now - p.date ∧ now - p.date ≤ 21 ∧ p.mode = "fact"))).get?
           (k % (h.posts.filter
             (fun p => decide (7 ≤ now - p.date ∧ now - p.date ≤ 21 ∧ p.mode = "fact"))).length)) ∧
    (∀ x, get_callback_candidate h now k = some x →
       x ∈ h.posts ∧ x.mode = "fact" ∧ 7 ≤ now - x.date ∧ now - x.date ≤ 21) := by
  refine ⟨fun hlt => ?_, fun hnone => ?_, fun hge hne => ?_, fun x hx => ?_⟩
  · unfold get_callback_candidate
    rw [if_pos hlt]
  · unfold get_callback_candidate
    split
    · rfl
    · have hnil : callbackLoop now h.posts = [] := by
        rw [callbackLoop_eq_filter]
        exact List.filter_eq_nil_iff.mpr (fun p hp => by simpa using hnone p hp)
      rw [hnil]
      rfl
  · unfold get_callback_candidate
    rw [if_neg (Nat.not_lt.mpr hge)]
    have hcand : callbackLoop now h.posts ≠ [] := by
      rw [callbackLoop_eq_filter]; exact hne
    rw [callbackLoop_eq_filter]
    rw [if_neg (by simpa [List.isEmpty_iff, callbackLoop_eq_filter] using hne)]
    rfl
  · unfold get_callback_candidate at hx
    simp only [] at hx
    split at hx
    · exact absurd hx (by simp)
    · split at hx
      · exact absurd hx (by simp)
      · have hmem : x ∈ callbackLoop now h.posts := List.get?_mem hx
        rw [callbackLoop_eq_filter] at hmem
        have h2 := List.mem_filter.mp hmem
        have h3 : 7 ≤ now - x.date ∧ now - x.date ≤ 21 ∧ x.mode = "fact" := by
          simpa using h2.2
        exact ⟨h2.1, h3.2.2, h3.1, h3.2.1⟩

/-- C5 witness: none on a short history; the indexed candidate on a
7-post history with candidates in the band. -/
theorem callback_candidate_witness :
    get_callback_candidate emptyHistory 100 0 = none ∧
    get_callback_candidate H5b 100 9 =
      (H5b.posts.filter
          (fun p => decide (7 ≤ 100 - p.date ∧ 100 - p.date ≤ 21 ∧ p.mode = "fact"))).get?
        (9 % (H5b.posts.filter
          (fun p => decide (7 ≤ 100 - p.date ∧ 100 - p.date ≤ 21 ∧ p.mode = "fact"))).length) :=
  ⟨(callback_candidate_spec emptyHistory 100 0).1 (by decide),
   (callback_candidate_spec H5b 100 9).2.2.1 (by decide) (by decide)⟩

/-- C3 counterexample: on the empty options list `pick_fresh` does
fail (it reaches `random.choice([])`, which raises `IndexError`,
modelled as `none`), so it cannot return a member of the options; the
claim as stated quantifies over EVERY options list. -/
theorem pick_fresh_cex : pick_fresh ([] : List String) [] 0 = none := by decide

/-- C3 (amended): for every NON-EMPTY options list and every
recently-used list, `pick_fresh` returns a member of the options list,
picks the uniformly indexed element of the fresh sublist when that
sublist is non-empty and of the full options list otherwise, every
fresh option is reachable, and the function never fails. -/
theorem pick_fresh_spec (options used : List String) (k : Nat) (hne : options ≠ []) :
    (∃ x, pick_fresh options used k = some x ∧ x ∈ options) ∧
    (∀ x, pick_fresh options used k = some x → x ∈ options) ∧
    (options.filter (fun o => !(used.contains o)) ≠ [] →
       pick_fresh options used k =
         (options.filter (fun o => !(used.contains o))).get?
           (k % (options.filter (fun o => !(used.contains o))).length)) ∧
    (options.filter (fun o => !(used.contains o)) = [] →
       pick_fresh options used k = options.get? (k % options.length)) ∧
    (∀ x ∈ options.filter (fun o => !(used.contains o)),
       ∃ j, j < (options.filter (fun o => !(used.contains o))).length ∧
         pick_fresh options used j = some x) := by
  refine ⟨?_, fun x hx => ?_, fun hfr => ?_, fun hfr => ?_, fun x hx => ?_⟩
  · unfold pick_fresh
    by_cases hemp : (options.filter (fun o => !(used.contains o))).isEmpty
    · rw [if_pos hemp]
      exact choose?_eq_some hne
    · rw [if_neg hemp]
      have hfr : options.filter (fun o => !(used.contains o)) ≠ [] := by
        simpa [List.isEmpty_iff] using hemp
      obtain ⟨x, hx, hmem⟩ := choose?_eq_some (k := k) hfr
      exact ⟨x, hx, (List.mem_filter.mp hmem).1⟩
  · unfold pick_fresh at hx
    by_cases hemp : (options.filter (fun o => !(used.contains o))).isEmpty
    · rw [if_pos hemp] at hx
      exact List.get?_mem hx
    · rw [if_neg hemp] at hx
      exact (List.mem_filter.mp (List.get?_mem hx)).1
  · unfold pick_fresh
    rw [if_neg (by simpa [List.isEmpty_iff] using hfr)]
    rfl
  · unfold pick_fresh
    rw [if_pos (by simpa [List.isEmpty_iff] using hfr)]
    rfl
  · obtain ⟨⟨j, hj⟩, hget⟩ := List.mem_iff_get.mp hx
    refine ⟨j, hj, ?_⟩
    unfold pick_fresh
    rw [if_neg (show ¬((options.filter (fun o => !(used.contains o))).isEmpty = true) by
      simp only [List.isEmpty_iff]
      exact List.ne_nil_of_mem hx)]
    unfold choose?
    rw [Nat.mod_eq_of_lt hj]
    rw [List.get?_eq_get hj, hget]

/-- C3 witness: `pick_fresh` on the full topic list with one recently
used entry. -/
theorem pick_fresh_witness :
    TOPICS ≠ [] ∧
    (∃ x, pick_fresh TOPICS ["quantum mechanics"] 0 = some x ∧ x ∈ TOPICS) :=
  ⟨by decide, (pick_fresh_spec TOPICS ["quantum mechanics"] 0 (by decide)).1⟩

theorem isPrefixOf_iff_append (l1 l2 : List Char) :
    l1.isPrefixOf l2 = true ↔ ∃ t, l1 ++ t = l2 := by
  induction l1 generalizing l2 with
  | nil => simp [List.isPrefixOf]
  | cons a as ih =>
    cases l2 with
    | nil => simp [List.isPrefixOf]
    | cons b bs =>
      simp only [List.isPrefixOf, Bool.and_eq_true, beq_iff_eq, ih, List.cons_append]
      constructor
      · rintro ⟨rfl, t, rfl⟩
        exact ⟨t, rfl⟩
      · rintro ⟨t, ht⟩
        injection ht with h1 h2
        exact ⟨h1, t, h2⟩

theorem splitFirst_append (sep : List Char) : ∀ (l pre post : List Char),
    splitFirst sep l = some (pre, post) → l = pre ++ sep ++ post := by
  intro l
  induction l with
  | nil => intro pre post h; simp [splitFirst] at h
  | cons c rest ih =>
    intro pre post h
    unfold splitFirst at h
    split at h
    · rename_i hpre
      rw [Option.some.injEq, Prod.mk.injEq] at h
      obtain ⟨h1, h2⟩ := h
      obtain ⟨t, ht⟩ := (isPrefixOf_iff_append sep (c :: rest)).mp hpre
      subst h1
      rw [← h2, ← ht, List.drop_left]
      simp
    · split at h
      · rename_i pr po hrec
        rw [Option.some.injEq, Prod.mk.injEq] at h
        obtain ⟨h1, h2⟩ := h
        subst h1
        subst h2
        have := ih pr po hrec
        simp [this]
      · exact absurd h (by simp)

theorem splitFirst_minimal (sep : List Char) : ∀ (l pre post : List Char),
    splitFirst sep l = some (pre, post) →
    ∀ a b, l = a ++ sep ++ b → pre.length ≤ a.length := by
  intro l
  induction l with
  | nil => intro pre post h; simp [splitFirst] at h
  | cons c rest ih =>
    intro pre post h a b hab
    unfold splitFirst at h
    split at h
    · rw [Option.some.injEq, Prod.mk.injEq] at h
      rw [← h.1]
      simp
    · rename_i hnpre
      split at h
      · rename_i pr po hrec
        rw [Option.some.injEq, Prod.mk.injEq] at h
        obtain ⟨h1, h2⟩ := h
        cases a with
        | nil =>
          exfalso
          apply hnpre
          rw [isPrefixOf_iff_append]
          exact ⟨b, by simpa using hab.symm⟩
        | cons a0 as =>
          rw [List.cons_append, List.cons_append] at hab
          injection hab with hc hrest
          rw [← h1, List.length_cons, List.length_cons]
          exact Nat.succ_le_succ (ih pr po hrec as b (by simpa using hrest))
      · exact absurd h (by simp)

theorem splitFirst_isSome (sep : List Char) (hsep : sep ≠ []) :
    ∀ (a b l : List Char), l = a ++ sep ++ b → (splitFirst sep l).isSome = true := by
  intro a
  induction a with
  | nil =>
    intro b l hl
    cases sep with
    | nil => exact absurd rfl hsep
    | cons s ss =>
      subst hl
      rw [List.nil_append, List.cons_append]
      unfold splitFirst
      rw [if_pos ((isPrefixOf_iff_append _ _).mpr ⟨b, by simp⟩)]
      rfl
  | cons a0 as ih =>
    intro b l hl
    subst hl
    rw [List.cons_append, List.cons_append]
    unfold splitFirst
    by_cases hp : (sep.isPrefixOf (a0 :: (as ++ sep ++ b))) = true
    · rw [if_pos (by simpa using hp)]
      rfl
    · rw [if_neg (by simpa using hp)]
      have hrec := ih b (as ++ sep ++ b) rfl
      rcases hs : splitFirst sep (as ++ sep ++ b) with _ | ⟨pr, po⟩
      · rw [hs] at hrec
        simp at hrec
      · rfl

/-- C7: puzzle parsing splits the raw response at the first occurrence
of the literal `ANSWER:` marker, stripping both parts (the concrete
example yields content `Puzzle text.` and answer `42`); when the marker
is absent the content is the whole response and the answer is the fixed
placeholder; and every successfully generated puzzle post carries
exactly the parse of some raw response. -/
theorem puzzle_parse_spec :
    parseAnswer "Puzzle text.\n\nANSWER: 42" = ("Puzzle text.", "42") ∧
    (∀ full : String, (¬ ∃ a b, full.data = a ++ "ANSWER:".data ++ b) →
       parseAnswer full = (full, "(Answer coming tomorrow)")) ∧
    (∀ (full : String) (pre post : List Char),
       splitFirst "ANSWER:".data full.data = some (pre, post) →
       full.data = pre ++ "ANSWER:".data ++ post ∧
       (∀ a b, full.data = a ++ "ANSWER:".data ++ b → pre.length ≤ a.length) ∧
       parseAnswer full = (strTrim ⟨pre⟩, strTrim ⟨post⟩)) ∧
    (∀ (o : Oracle) (r : GenRand) (now : Int) (h : History) (post : Post),
       generate_puzzle o r now h = .ok post →
       ∃ raw, post.content = (parseAnswer raw).1 ∧
         post.answer = some (parseAnswer raw).2) := by
  refine ⟨by decide, fun full hno => ?_, fun full pre post hsp => ?_,
    fun o r now h post hok => ?_⟩
  · unfold parseAnswer
    rcases hs : splitFirst "ANSWER:".data full.data with _ | ⟨pre, post⟩
    · rfl
    · exact absurd ⟨pre, post, splitFirst_append _ _ _ _ hs⟩ hno
  · refine ⟨splitFirst_append _ _ _ _ hsp, splitFirst_minimal _ _ _ _ hsp, ?_⟩
    unfold parseAnswer
    rw [hsp]
  · unfold generate_puzzle at hok
    split at hok
    · rename_i topic htopic
      simp only [] at hok
      split at hok
      · exact absurd hok (by simp)
      · rename_i raw hraw
        split at hok
        · exact absurd hok (by simp)
        · rename_i summary hsum
          rw [Except.ok.injEq] at hok
          exact ⟨raw, by rw [← hok], by rw [← hok]⟩
    · exact absurd hok (by simp)

/-- C7 witness: the split and parse evaluated at a concrete input with
the marker in the middle. -/
theorem puzzle_parse_witness :
    splitFirst "ANSWER:".data "A ANSWER: B".data = some ("A ".data, " B".data) ∧
    parseAnswer "A ANSWER: B" = (strTrim ⟨"A ".data⟩, strTrim ⟨" B".data⟩) :=
  ⟨by decide,
   (puzzle_parse_spec.2.2.1 "A ANSWER: B" "A ".data " B".data (by decide)).2.2⟩

theorem generate_fact_mode (o : Oracle) (r : GenRand) (now : Int) (h : History)
    (post : Post) (hok : generate_fact o r now h = .ok post) : post.mode = "fact" := by
  unfold generate_fact at hok
  split at hok
  · simp only [] at hok
    split at hok
    · exact absurd hok (by simp)
    · split at hok
      · exact absurd hok (by simp)
      · rw [Except.ok.injEq] at hok
        rw [← hok]
  · exact absurd hok (by simp)

/-- C6: with fewer than 3 posts whose whole-day age is at most 7, the
connections generator runs the fact generator, and any post it then
returns has mode `fact`, not `connections`. -/
theorem connections_degrade (o : Oracle) (r : GenRand) (now : Int) (h : History)
    (hlt : (get_recent_posts h now 7).length < 3) :
    generate_connections o r now h = generate_fact o r now h ∧
    (∀ post, generate_connections o r now h = .ok post → post.mode = "fact") := by
  have he : generate_connections o r now h = generate_fact o r now h := by
    unfold generate_connections
    rw [if_pos hlt]
  exact ⟨he, fun post hok => generate_fact_mode o r now h post (he ▸ hok)⟩

/-- C6 witness: the degradation evaluated on the empty history with a
constant oracle. -/
theorem connections_degrade_witness :
    (get_recent_posts emptyHistory 0 7).length < 3 ∧
    generate_connections oK r0 0 emptyHistory = generate_fact oK r0 0 emptyHistory :=
  ⟨by decide, (connections_degrade oK r0 0 emptyHistory (by decide)).1⟩

theorem generate_summary_err (o : Oracle) (hall : ∀ p, o p 100 = .error ()) (c : String) :
    generate_summary o c = .error () := by
  unfold generate_summary
  rw [hall]

theorem generate_fact_err (o : Oracle) (r : GenRand) (now : Int) (h : History)
    (hall : ∀ p, o p 100 = .error ()) : generate_fact o r now h = .error () := by
  unfold generate_fact
  split
  · simp only []
    split
    · rfl
    · rw [generate_summary_err o hall]
  · rfl

theorem generate_what_if_err (o : Oracle) (r : GenRand) (now : Int) (h : History)
    (hall : ∀ p, o p 100 = .error ()) : generate_what_if o r now h = .error () := by
  unfold generate_what_if
  split
  · simp only []
    split
    · rfl
    · rw [generate_summary_err o hall]
  · rfl

theorem generate_puzzle_err (o : Oracle) (r : GenRand) (now : Int) (h : History)
    (hall : ∀ p, o p 100 = .error ()) : generate_puzzle o r now h = .error () := by
  unfold generate_puzzle
  split
  · simp only []
    split
    · rfl
    · rw [generate_summary_err o hall]
  · rfl

theorem generate_connections_err (o : Oracle) (r : GenRand) (now : Int) (h : History)
    (hall : ∀ p, o p 100 = .error ()) : generate_connections o r now h = .error () := by
  unfold generate_connections
  simp only []
  split
  · exact generate_fact_err o r now h hall
  · split
    · rfl
    · rw [generate_summary_err o hall]

theorem generate_content_err (o : Oracle) (r : GenRand) (now : Int) (m : String)
    (h : History) (hall : ∀ p, o p 100 = .error ()) :
    generate_content o r now m h = .error () := by
  unfold generate_content
  split_ifs
  · exact generate_fact_err o r now h hall
  · exact generate_what_if_err o r now h hall
  · exact generate_puzzle_err o r now h hall
  · exact generate_connections_err o r now h hall
  · exact generate_fact_err o r now h hall

theorem daily_post_err (o : Oracle) (r : GenRand) (now : Int) (wd : Nat) (h : History)
    (hall : ∀ p, o p 100 = .error ()) : daily_post o r now wd h = .error () := by
  unfold daily_post
  simp only []
  rw [generate_content_err _ _ _ _ _ hall]

/-- C2: an invocation whose external model call raises aborts with the
exception and the persisted aggregate (the store wrapper) is exactly
the loaded one; an oracle failing at every summarization step (the
second call of every generation path) already aborts the scheduled
invocation; and an oracle failing on every call aborts every manual
command as well. -/
theorem invocation_atomicity (o : Oracle) (r : GenRand) (now : Int) (wd : Nat)
    (h : History) (targ : Option String) :
    (∀ e, daily_post o r now wd h = .error e → daily_post_store o r now wd h = h) ∧
    (∀ e, get_puzzle_cmd o r now h = .error e → get_puzzle_store o r now h = h) ∧
    ((∀ p, o p 100 = .error ()) → daily_post o r now wd h = .error ()) ∧
    ((∀ p n, o p n = .error ()) →
       daily_post o r now wd h = .error () ∧
       get_puzzle_cmd o r now h = .error () ∧
       get_fact_cmd o r now targ h = .error () ∧
       get_what_if_cmd o r now h = .error ()) := by
  refine ⟨fun e he => ?_, fun e he => ?_,
    fun hall => daily_post_err o r now wd h hall, fun hall => ?_⟩
  · unfold daily_post_store
    rw [he]
  · unfold get_puzzle_store
    rw [he]
  · have h100 : ∀ p, o p 100 = .error () := fun p => hall p 100
    refine ⟨daily_post_err o r now wd h h100, ?_, ?_, ?_⟩
    · unfold get_puzzle_cmd
      rw [generate_puzzle_err o r now h h100]
    · unfold get_fact_cmd
      split
      · rw [hall]
      · rw [generate_fact_err o r now h h100]
    · unfold get_what_if_cmd
      rw [generate_what_if_err o r now h h100]

/-- C2 witness: the always-failing oracle on the empty history aborts
the scheduled invocation and the store is left exactly as loaded. -/
theorem invocation_atomicity_witness :
    daily_post oFail r0 0 0 emptyHistory = .error () ∧
    daily_post_store oFail r0 0 0 emptyHistory = emptyHistory := by
  have hall : ∀ (p : String) (n : Nat), oFail p n = .error () := fun p n => rfl
  have h1 := ((invocation_atomicity oFail r0 0 0 emptyHistory none).2.2.2 hall).1
  exact ⟨h1, (invocation_atomicity oFail r0 0 0 emptyHistory none).1 () h1⟩

/-- C1 counterexample: on a Friday (puzzle-mode) scheduled invocation
whose raw response carries only whitespace after the `ANSWER:` marker,
the newly parsed answer is the empty string, yet the truthiness guard
`if mode == "puzzle" and result.get("answer")` leaves
`pending_puzzle_answer` at `none` instead of writing the parsed answer
into the slot, contradicting the claim that on a puzzle invocation the
newly parsed answer is written into `pending_puzzle_answer`. -/
theorem daily_pending_cex :
    (generate_puzzle oWS r0 0 emptyHistory).toOption.map Post.answer = some (some "") ∧
    (daily_post oWS r0 0 4 emptyHistory).toOption.map
        (fun res => res.newHistory.pending_puzzle_answer) = some none := by
  constructor <;> rfl

theorem generate_fact_frame (o : Oracle) (r : GenRand) (now : Int)
    (posts : List Post) (uw ut : List String) (p1 p2 t1 t2 : Option String) :
    generate_fact o r now ⟨posts, uw, ut, p1, t1⟩ =
      generate_fact o r now ⟨posts, uw, ut, p2, t2⟩ := rfl

theorem generate_content_frame (o : Oracle) (r : GenRand) (now : Int) (m : String)
    (posts : List Post) (uw ut : List String) (p1 p2 t1 t2 : Option String) :
    generate_content o r now m ⟨posts, uw, ut, p1, t1⟩ =
      generate_content o r now m ⟨posts, uw, ut, p2, t2⟩ := rfl

/-- C1 (amended): on a scheduled invocation, a nonempty pending answer
is consumed — it is cleared from the aggregate and its value prefixed
exactly once onto the rendered description of the newly generated post;
afterwards the slot holds the newly parsed answer exactly when the mode
is puzzle AND that answer is nonempty (the truthiness guard of the
source), and is empty otherwise, so at most one answer is ever in
flight. -/
theorem daily_pending_slot (o : Oracle) (r : GenRand) (now : Int) (wd : Nat)
    (h0 : History) (res : DailyResult)
    (hp : h0.pending_puzzle_answer ≠ some "")
    (hok : daily_post o r now wd h0 = .ok res) :
    ∃ post, generate_content o r now (mode_schedule wd)
        { h0 with pending_puzzle_answer := none } = .ok post ∧
      res.newHistory.pending_puzzle_answer =
        (if mode_schedule wd = "puzzle" ∧ optTruthy post.answer then post.answer
         else none) ∧
      (∀ a, h0.pending_puzzle_answer = some a →
         res.description =
           "**Yesterday\u0027s puzzle answer:**\n" ++ a ++ "\n\n---\n\n" ++ post.content) ∧
      (h0.pending_puzzle_answer = none → res.description = post.content) := by
  obtain ⟨posts, uw, ut, pend, temp⟩ := h0
  unfold daily_post at hok
  simp only [] at hok
  rcases pend with _ | a
  · have hc : optTruthy none = false := rfl
    rw [hc] at hok
    simp only [Bool.false_eq_true, if_false] at hok
    split at hok
    · exact absurd hok (by simp)
    · rename_i result hres
      rw [Except.ok.injEq] at hok
      refine ⟨result, hres, ?_, fun a ha => absurd ha (by simp), fun _ => ?_⟩
      · rw [← hok]
        show (add_to_history _ _).pending_puzzle_answer = _
        rw [add_pending_eq]
        by_cases hcnd : mode_schedule wd = "puzzle" ∧ optTruthy result.answer
        · rw [if_pos hcnd, if_pos hcnd]
        · rw [if_neg hcnd, if_neg hcnd]
      · rw [← hok]
  · have ha : a ≠ "" := fun he => hp (by rw [he])
    have hc : optTruthy (some a) = true := by simp [optTruthy, ha]
    rw [hc] at hok
    simp only [if_true] at hok
    split at hok
    · exact absurd hok (by simp)
    · rename_i result hres
      rw [Except.ok.injEq] at hok
      refine ⟨result, hres, ?_, fun a2 ha2 => ?_, fun hnone => absurd hnone (by simp)⟩
      · rw [← hok]
        show (add_to_history _ _).pending_puzzle_answer = _
        rw [add_pending_eq]
        by_cases hcnd : mode_schedule wd = "puzzle" ∧ optTruthy result.answer
        · rw [if_pos hcnd, if_pos hcnd]
        · rw [if_neg hcnd, if_neg hcnd]
      · rw [Option.some.injEq] at ha2
        subst ha2
        rw [← hok]

/-- C1 witness: a Monday run with pending answer `7` against the
constant oracle, with the reveal block prefixed and the slot cleared. -/
theorem daily_pending_slot_witness :
    ∃ post, generate_content oK r0 0 (mode_schedule 0)
        { Hp with pending_puzzle_answer := none } = .ok post ∧
      RES1.newHistory.pending_puzzle_answer =
        (if mode_schedule 0 = "puzzle" ∧ optTruthy post.answer then post.answer
         else none) ∧
      (∀ a, Hp.pending_puzzle_answer = some a →
         RES1.description =
           "**Yesterday\u0027s puzzle answer:**\n" ++ a ++ "\n\n---\n\n" ++ post.content) ∧
      (Hp.pending_puzzle_answer = none → RES1.description = post.content) :=
  daily_pending_slot oK r0 0 0 Hp RES1 (by decide) (by rfl)

/-- C9: the manual `!puzzle` command writes only the manual single-slot
`temp_answer` field, overwriting it with the newly parsed answer, and
leaves `pending_puzzle_answer`, the post log and both rotation caches
untouched; the `!answer` command reads only the manual slot. -/
theorem manual_slot_independent (o : Oracle) (r : GenRand) (now : Int)
    (h hh : History) (desc : String)
    (hok : get_puzzle_cmd o r now h = .ok (hh, desc)) :
    (hh.pending_puzzle_answer = h.pending_puzzle_answer ∧ hh.posts = h.posts ∧
     hh.used_wonders = h.used_wonders ∧ hh.used_topics = h.used_topics) ∧
    (∃ post, generate_puzzle o r now h = .ok post ∧
       hh.temp_answer = some (post.answer.getD "No answer available") ∧
       desc = post.content) ∧
    (∀ h1 h2 : History, h1.temp_answer = h2.temp_answer →
       get_answer_cmd h1 = get_answer_cmd h2) := by
  unfold get_puzzle_cmd at hok
  split at hok
  · exact absurd hok (by simp)
  · rename_i result hres
    rw [Except.ok.injEq, Prod.mk.injEq] at hok
    obtain ⟨hh1, hd⟩ := hok
    refine ⟨?_, ⟨result, hres, ?_, hd.symm⟩, fun h1 h2 ht => ?_⟩
    · rw [← hh1]
      simp
    · rw [← hh1]
    · unfold get_answer_cmd
      rw [ht]

/-- C9 witness: the `!puzzle` command run on the empty aggregate with a
well-formed puzzle response leaves the daily pending slot unchanged. -/
theorem manual_slot_witness :
    HPz.pending_puzzle_answer = emptyHistory.pending_puzzle_answer ∧
    HPz.posts = emptyHistory.posts ∧
    HPz.used_wonders = emptyHistory.used_wonders ∧
    HPz.used_topics = emptyHistory.used_topics :=
  (manual_slot_independent oPz r0 0 emptyHistory HPz "Q" (by rfl)).1

end Bot
